import Mathlib

/-!
Shallow embedding of the qlbridge expression-evaluation core (vm/vm.go,
vm/sqlvm.go) and of the virtual-schema registry (schema package), together
with theorems about the embedded operations.

Modelling conventions:
* Go `int64` is modelled as `ℤ`; arithmetic that can overflow goes through
  `wrap64`, which reduces modulo `2 ^ 64` into the signed 64-bit range.
* Go `float64` is idealized as `ℚ`.  The `math.IsNaN` guard of
  `operateNumbers` is vacuous in this model (ℚ has no NaN), and float
  division by zero (±Inf in Go) is not representable; no theorem below
  depends on either.
* A Go `value.Value` interface that may be the untyped `nil` interface is
  modelled as `Option Value` (`none` = untyped nil), since the source
  distinguishes `case nil` from `case value.NilValue` (it treats them
  identically in every switch of the embedded code).
* Go panics are modelled explicitly: `PanicV.runtime` stands for a
  `runtime.Error` panic (integer divide by zero, nil dereference) and
  `PanicV.errVal` for a `panic(fmt.Errorf(...))`.
-/

namespace QLBridge

/-- Dynamic value variants of the qlbridge value package used by the VM. -/
inductive Value where
  | intV (i : ℤ)
  | numV (q : ℚ)
  | boolV (b : Bool)
  | strV (s : String)
  | nilV
  | errV (msg : String)
  deriving DecidableEq, Repr

/-- A `value.Value` interface position that may hold the untyped nil interface. -/
abbrev GoValue := Option Value

/-- Kinds of Go panic relevant to `errRecover`. -/
inductive PanicV where
  | runtime
  | errVal (msg : String)
  deriving DecidableEq, Repr

/-- Outcome of an evaluation returning `(value.Value, error)` in Go:
a value with nil error, a non-nil error (the accompanying value is dropped
by every caller in the embedded code), or a panic unwinding the stack. -/
inductive EvalOut where
  | val (v : GoValue)
  | err (e : String)
  | panicked (p : PanicV)
  deriving DecidableEq, Repr

/-- Lexer tokens consumed by the embedded walkers. -/
inductive Tok where
  | plus | minus | star | multiply | divide | modulus
  | eqEq | eq | ne | gt | lt | ge | le
  | logicAnd | logicOr | orT
  | like | between
  deriving DecidableEq, Repr

/-- Signed 64-bit wrap-around, the effect of Go `int64` overflow. -/
def wrap64 (x : ℤ) : ℤ := (x + 2 ^ 63) % 2 ^ 64 - 2 ^ 63

/-- The value fits in a signed 64-bit integer (no overflow). -/
def inRange64 (x : ℤ) : Prop := -(2 ^ 63) ≤ x ∧ x < 2 ^ 63

/-- Truncation toward zero, the effect of Go `int64(f)` on a float value
(for a rational in lowest terms with positive denominator, truncated
division of numerator by denominator truncates toward zero). -/
def ratTrunc (q : ℚ) : ℤ := q.num.tdiv (q.den : ℤ)

/-- Message of the `panic(fmt.Errorf("expr: unknown operator %s", op))`
fallthrough of the operate functions (operand formatting elided). -/
def opUnknownMsg : String := "expr: unknown operator"

/-- Embedding of `operateInts` (vm.go).  Faithful to the source switch; note
that the `==` case handles only `lex.TokenEqualEqual` — the single-equals
token `lex.TokenEqual` falls through to the final panic, unlike in
`operateNumbers`. -/
def operateInts (op : Tok) (a b : ℤ) : EvalOut :=
  match op with
  | .plus => .val (some (.intV (wrap64 (a + b))))
  | .star | .multiply => .val (some (.intV (wrap64 (a * b))))
  | .minus => .val (some (.intV (wrap64 (a - b))))
  | .divide =>
      if b = 0 then .panicked .runtime
      else .val (some (.intV (wrap64 (a.tdiv b))))
  | .modulus =>
      if b = 0 then .panicked .runtime
      else .val (some (.intV (a.tmod b)))
  | .eqEq => .val (some (.boolV (decide (a = b))))
  | .gt => .val (some (.boolV (decide (a > b))))
  | .ne => .val (some (.boolV (decide (a ≠ b))))
  | .lt => .val (some (.boolV (decide (a < b))))
  | .ge => .val (some (.boolV (decide (a ≥ b))))
  | .le => .val (some (.boolV (decide (a ≤ b))))
  | .logicOr | .orT => .val (some (.boolV (decide (a ≠ 0 ∨ b ≠ 0))))
  | .logicAnd => .val (some (.boolV (decide (a ≠ 0 ∧ b ≠ 0))))
  | _ => .panicked (.errVal opUnknownMsg)

/-- Embedding of `operateNumbers` (vm.go) over idealized floats.  The
modulus case truncates both operands to `int64` and performs an integer
modulus (`float64(int64(a) % int64(b))`), panicking with a runtime error
when the truncated divisor is zero, exactly as the Go source does. -/
def operateNumbers (op : Tok) (a b : ℚ) : EvalOut :=
  match op with
  | .plus => .val (some (.numV (a + b)))
  | .star | .multiply => .val (some (.numV (a * b)))
  | .minus => .val (some (.numV (a - b)))
  | .divide => .val (some (.numV (a / b)))
  | .modulus =>
      if ratTrunc b = 0 then .panicked .runtime
      else .val (some (.numV ((ratTrunc a).tmod (ratTrunc b) : ℤ)))
  | .eqEq | .eq => .val (some (.boolV (decide (a = b))))
  | .gt => .val (some (.boolV (decide (a > b))))
  | .ne => .val (some (.boolV (decide (a ≠ b))))
  | .lt => .val (some (.boolV (decide (a < b))))
  | .ge => .val (some (.boolV (decide (a ≥ b))))
  | .le => .val (some (.boolV (decide (a ≤ b))))
  | .logicOr | .orT => .val (some (.boolV (decide (a ≠ 0 ∨ b ≠ 0))))
  | .logicAnd => .val (some (.boolV (decide (a ≠ 0 ∧ b ≠ 0))))
  | _ => .panicked (.errVal opUnknownMsg)

/-- External glob matcher interface of `github.com/mb0/glob`:
`glob.Match(pattern, subject)` returns `(match, err)`, here `(Bool × Bool)`
with the second component true iff the error was non-nil. -/
abbrev GlobFn := String → String → Bool × Bool

/-- Embedding of `operateStrings` (vm.go).  In the `LIKE` case the source
calls `value.NewErrorValuef("invalid LIKE pattern: ...")` when the glob
matcher reports an error, but discards the constructed error value (there
is no `return` in front of it) and falls through to returning the boolean
match result. -/
def operateStrings (gm : GlobFn) (op : Tok) (a b : String) : Value :=
  match op with
  | .eqEq | .eq => .boolV (decide (a = b))
  | .ne => .boolV (decide (a ≠ b))
  | .like =>
      -- match, err := glob.Match(b, a); the err-branch result is discarded
      if (gm b a).1 then .boolV true else .boolV false
  | _ => .errV "unsupported operator for strings"

/-! Expression AST (the node shapes of the expr package consumed by `Eval`:
number, string, identity and binary nodes, which are the kinds this
development needs) and the read-context interface. -/

/-- AST nodes.  `num` carries the `NumberNode` fields `IsInt`/`Int64`/
`IsFloat` and the (pre-parsed) numeric value of `Text`. -/
inductive Expr where
  | num (isInt : Bool) (i64 : ℤ) (isFloat : Bool) (ftext : Option ℚ)
  | str (s : String)
  | ident (name : String)
  | binary (op : Tok) (l r : Expr)
  deriving DecidableEq, Repr

/-- Integer literal node. -/
def intLit (a : ℤ) : Expr := .num true a false none

/-- A read-context: `Get(name)` returns `(value.Value, error)`. -/
abbrev CtxF := String → GoValue × Option String

/-- A possibly-nil read-context (walkIdentity checks `ctx == nil`). -/
abbrev Ctx := Option CtxF

/-- Model of Go `strings.ToLower` (ASCII case folding suffices here). -/
def strLower (s : String) : String := ⟨s.data.map Char.toLower⟩

/-- Modelled from the spec: `IdentityNode.IsBooleanIdentity` of the expr
package (not under src) recognizes the `true`/`false` identifiers. -/
def isBooleanIdentity (name : String) : Bool :=
  strLower name = "true" || strLower name = "false"

/-- Modelled from the spec: `IdentityNode.Bool()` of the expr package. -/
def identBool (name : String) : Bool := strLower name = "true"

/-- Modelled from the spec: lossy string-to-number conversion
(`value.ToFloat64` / `CanCoerce`/`NumberValue` on strings; the value
package is not under src).  Integer literals only in this model; no claim
depends on the exact parse. -/
def strToNum (s : String) : Option ℚ := (s.toInt?).map fun i => (i : ℚ)

/-- Modelled from the spec: `value.IsBool`/`value.BoolStringVal` parse
boolean-like strings. -/
def strToBool (s : String) : Option Bool :=
  if strLower s = "true" then some true
  else if strLower s = "false" then some false
  else none

/-- Modelled from the spec: the per-kind `Nil()` accessor of the value
package (not under src); `NilValue` and zero-length Strings report nil. -/
def Value.isNilV : Value → Bool
  | .nilV => true
  | .strV s => decide (s = "")
  | _ => false

/-- Embedding of `numberNodeToValue` (vm.go). -/
def numberNodeToValue (isInt : Bool) (i64 : ℤ) (isFloat : Bool)
    (ftext : Option ℚ) : EvalOut :=
  if isInt then .val (some (.intV i64))
  else if isFloat then
    match ftext with
    | some q => .val (some (.numV q))
    | none => .err "Could not convert to number"
  else .val (some (.nilV))

/-- Embedding of `walkIdentity` (vm.go). -/
def walkIdentity (ctx : Ctx) (name : String) : EvalOut :=
  if isBooleanIdentity name then .val (some (.boolV (identBool name)))
  else
    match ctx with
    | none => .val (some (.strV name))
    | some f =>
        match f name with
        | (v, none) => .val v
        | (_, some e) => .err e

/-- Message of the `fmt.Errorf("aerr:%v berr:%v", ...)` return of
`walkBinary` (operand error formatting elided). -/
def binArgErrMsg : String := "aerr or berr"

/-- The kind-pair dispatch of `walkBinary` (vm.go) on two already-evaluated
operand values.  Branches mirror the nested type switches of the source;
switch cases without a `return` fall through to the final
`unsupported binary expression` error, and an unknown left-side kind
(e.g. an ErrorValue operand) hits the outer default. -/
def binDispatch (gm : GlobFn) (op : Tok) (av bv : GoValue) : EvalOut :=
  match av with
  | some (.intV a) =>
      match bv with
      | some (.intV b) => operateInts op a b
      | some (.numV b) => operateNumbers op (a : ℚ) b
      | _ => .err "unsupported binary expression"
  | some (.numV a) =>
      match bv with
      | some (.intV b) => operateNumbers op a (b : ℚ)
      | some (.numV b) => operateNumbers op a b
      | _ => .err "unsupported binary expression"
  | some (.boolV a) =>
      match bv with
      | some (.boolV b) =>
          match op with
          | .logicAnd => .val (some (.boolV (a && b)))
          | .logicOr | .orT => .val (some (.boolV (a || b)))
          | .eqEq | .eq => .val (some (.boolV (a == b)))
          | .ne => .val (some (.boolV (a != b)))
          | _ => .err "unsupported binary expression"
      | none | some .nilV =>
          match op with
          | .logicAnd => .val (some (.boolV false))
          | .logicOr | .orT => .val (some (.boolV a))
          | .eqEq | .eq => .val (some (.boolV false))
          | .ne => .val (some (.boolV true))
          | _ => .val none
      | _ => .err "unsupported binary expression"
  | some (.strV a) =>
      match bv with
      | some (.strV b) => .val (some (operateStrings gm op a b))
      | none | some .nilV =>
          match op with
          | .eqEq | .eq =>
              if a = "" then .val (some (.boolV true))
              else .val (some (.boolV false))
          | .ne =>
              if a = "" then .val (some (.boolV false))
              else .val (some (.boolV true))
          | _ => .err "unsupported op"
      | some (.boolV b) =>
          match strToBool a with
          | some ab =>
              match op with
              | .eqEq | .eq => .val (some (.boolV (ab == b)))
              | .ne => .val (some (.boolV (ab != b)))
              | _ => .err "unsupported op"
          | none => .err "unhandled boolean"
      | some (.intV b) =>
          match strToNum a with
          | some aq => operateNumbers op aq (b : ℚ)
          | none => .err "unsupported binary expression"
      | some (.numV b) =>
          match strToNum a with
          | some aq => operateNumbers op aq b
          | none => .err "unsupported binary expression"
      | some (.errV _) => .err "unsupported binary expression"
  | none | some .nilV =>
      match op with
      | .logicAnd => .val (some (.boolV false))
      | .logicOr | .orT =>
          match bv with
          | some (.boolV b) => .val (some (.boolV b))
          | _ => .val (some (.boolV false))
      | .eqEq | .eq =>
          match bv with
          | none | some .nilV => .val (some (.boolV true))
          | _ => .val (some (.boolV false))
      | .ne => .val (some (.boolV true))
      | _ => .val none
  | some (.errV _) => .err "unsupported left side value"

/-- Combination step of `walkBinary`: both arguments are evaluated eagerly
(left first, so a left panic prevents the right evaluation); then non-nil
Go errors of either operand produce the `aerr/berr` error, and otherwise
the kind-pair dispatch runs. -/
def binCombine (gm : GlobFn) (op : Tok) (ar br : EvalOut) : EvalOut :=
  match ar with
  | .panicked p => .panicked p
  | _ =>
      match br with
      | .panicked p => .panicked p
      | _ =>
          match ar, br with
          | .val av, .val bv => binDispatch gm op av bv
          | _, _ => .err binArgErrMsg

/-- Embedding of `Eval` (vm.go) over the covered node kinds. -/
def eval (gm : GlobFn) (ctx : Ctx) : Expr → EvalOut
  | .num isInt i64 isFloat ftext => numberNodeToValue isInt i64 isFloat ftext
  | .str s => .val (some (.strV s))
  | .ident n => walkIdentity ctx n
  | .binary op l r => binCombine gm op (eval gm ctx l) (eval gm ctx r)

/-! The tri-node walker (BETWEEN). -/

/-- Result of `walkTri`: a `(value.Value, ok-bool)` pair as literally
returned by the source, or a propagating panic. -/
inductive TriOut where
  | ret (v : Value) (ok : Bool)
  | panicked (p : PanicV)
  deriving DecidableEq, Repr

/-- Embedding of `walkTri` (vm.go).  All three arguments are evaluated
(left to right, panics propagating); a non-nil error on any of them yields
`(BoolValueFalse, false)`.  `switch a.Type()` on the untyped nil interface
is a nil dereference, a runtime panic.  In the Number case the source
returns `(NewBoolValue(true), false)` — ok `false` — on a successful
strict-inequality match, unlike the Int case. -/
def walkTri (gm : GlobFn) (ctx : Ctx) (op : Tok) (e1 e2 e3 : Expr) : TriOut :=
  match eval gm ctx e1 with
  | .panicked p => .panicked p
  | r1 =>
      match eval gm ctx e2 with
      | .panicked p => .panicked p
      | r2 =>
          match eval gm ctx e3 with
          | .panicked p => .panicked p
          | r3 =>
              match r1, r2, r3 with
              | .val av, .val bv, .val cv =>
                  match op with
                  | .between =>
                      match av with
                      | none => .panicked .runtime
                      | some (.intV a) =>
                          match bv, cv with
                          | some (.intV b), some (.intV c) =>
                              if a > b ∧ a < c then .ret (.boolV true) true
                              else .ret (.boolV false) true
                          | _, _ => .ret (.boolV false) false
                      | some (.numV a) =>
                          match bv, cv with
                          | some (.numV b), some (.numV c) =>
                              if a > b ∧ a < c then .ret (.boolV true) false
                              else .ret (.boolV false) true
                          | _, _ => .ret (.boolV false) false
                      | some _ => .ret .nilV false
                  | _ => .ret .nilV false
              | _, _, _ => .ret (.boolV false) false

/-! SQL row evaluator (vm/sqlvm.go). -/

/-- A SELECT column: output name, optional guard expression, projection
expression. -/
structure Column where
  as : String
  guard : Option Expr
  expr : Expr
  deriving DecidableEq, Repr

/-- A SELECT statement as consumed by `EvalSql`. -/
structure SqlSelect where
  whereE : Option Expr
  columns : List Column
  deriving DecidableEq, Repr

/-- A `writeContext.Put` record: the column output name and the value. -/
abbrev PutRec := String × GoValue

/-- Result of `EvalSql`: the `(keep, err)` pair together with the sequence
of `Put` calls issued, or a propagating panic (with the puts issued before
it). -/
inductive SqlOut where
  | ret (keep : Bool) (err : Option String) (writes : List PutRec)
  | panicked (p : PanicV) (writes : List PutRec)
  deriving DecidableEq, Repr

/-- Prefix a put record onto the writes of a result. -/
def consW (w : PutRec) : SqlOut → SqlOut
  | .ret k e ws => .ret k e (w :: ws)
  | .panicked p ws => .panicked p (w :: ws)

/-- Outcome of the per-column guard evaluation in `EvalSql`: skip the
column (`continue`), fall through to the projection expression, or panic. -/
inductive GuardRes where
  | skip
  | proceed
  | panicked (p : PanicV)
  deriving DecidableEq, Repr

/-- The guard decision of `EvalSql` (vm/sqlvm.go): a Go error, a false
Bool, untyped nil, `NilValue`, an `ErrorValue`, or any other value whose
`Nil()` is true all cause `continue`; a true Bool or any other non-nil
value falls through to the projection. -/
def guardCheck (gm : GlobFn) (ctx : Ctx) : Option Expr → GuardRes
  | none => .proceed
  | some g =>
      match eval gm ctx g with
      | .panicked p => .panicked p
      | .err _ => .skip
      | .val gv =>
          match gv with
          | some (.boolV b) => if b then .proceed else .skip
          | none => .skip
          | some .nilV => .skip
          | some (.errV _) => .skip
          | some v => if v.isNilV then .skip else .proceed

/-- The projection loop of `EvalSql`: for each column, apply the guard;
on fall-through evaluate `col.Expr` — a Go error returns `(false, err)`,
otherwise `writeContext.Put(col, readContext, v)` is issued and the loop
continues; after the loop `(true, nil)`. -/
def evalColumns (gm : GlobFn) (ctx : Ctx) : List Column → SqlOut
  | [] => .ret true none []
  | col :: rest =>
      match guardCheck gm ctx col.guard with
      | .panicked p => .panicked p []
      | .skip => evalColumns gm ctx rest
      | .proceed =>
          match eval gm ctx col.expr with
          | .panicked p => .panicked p []
          | .err e => .ret false (some e) []
          | .val v => consW (col.as, v) (evalColumns gm ctx rest)

/-- Embedding of `EvalSql` (vm/sqlvm.go).  The WHERE gate: a Go error
returns `(false, err)`; a false Bool `(false, nil)`; untyped nil or
`NilValue` return `(true, nil)` keeping the row; an `ErrorValue` returns
`(true, errval)`; any other value with `Nil()` true returns `(false, nil)`;
otherwise the projection loop runs. -/
def evalSql (gm : GlobFn) (sel : SqlSelect) (ctx : CtxF) : SqlOut :=
  match sel.whereE with
  | none => evalColumns gm (some ctx) sel.columns
  | some w =>
      match eval gm (some ctx) w with
      | .panicked p => .panicked p []
      | .err e => .ret false (some e) []
      | .val wv =>
          match wv with
          | some (.boolV b) =>
              if b then evalColumns gm (some ctx) sel.columns
              else .ret false none []
          | none => .ret true none []
          | some .nilV => .ret true none []
          | some (.errV m) => .ret true (some m) []
          | some v =>
              if v.isNilV then .ret false none []
              else evalColumns gm (some ctx) sel.columns

/-! The single-expression VM entry point `Vm.Execute` with `errRecover`. -/

/-- Result of `Vm.Execute`: a returned error (or nil) plus the puts issued,
or a panic that escaped `errRecover`. -/
inductive ExecOut where
  | ret (err : Option String) (writes : List PutRec)
  | panicked (p : PanicV)
  deriving DecidableEq, Repr

/-- Embedding of `Vm.Execute` (vm.go).  `errRecover` converts a recovered
panic carrying a plain error into a returned error but re-raises
`runtime.Error` panics unchanged; an evaluation error is returned; a
returned `ErrorValue` is converted into an error; otherwise the value is
written under the empty `SchemaInfoEmpty` key. -/
def execute (gm : GlobFn) (root : Expr) (ctx : CtxF) : ExecOut :=
  match eval gm (some ctx) root with
  | .panicked .runtime => .panicked .runtime
  | .panicked (.errVal m) => .ret (some m) []
  | .err e => .ret (some e) []
  | .val v =>
      match v with
      | some (.errV m) => .ret (some m) []
      | _ => .ret none [("", v)]

/-! Virtual schema registry (schema package, src/unnamed/part_000). -/

/-- Insert a string into a sorted list, keeping it sorted. -/
def insertSorted (s : String) : List String → List String
  | [] => [s]
  | t :: rest => if s ≤ t then s :: t :: rest else t :: insertSorted s rest

/-- The effect of Go `sort.Strings`: sort ascending.  (Insertion sort; on
a total order it produces the same sorted output as the library sort.) -/
def sortStrings : List String → List String
  | [] => []
  | s :: rest => insertSorted s (sortStrings rest)

/-- State of a `Schema` as far as `AddTableName` touches it: the sorted
name list and the key sets of `tableMap` and `tableSources` (the owning
`SourceSchema` stored under each key is not tracked; no claim inspects
it). -/
structure SchemaSt where
  tableNames : List String
  tableMapKeys : List String
  tableSrcKeys : List String
  deriving DecidableEq, Repr

/-- Embedding of `Schema.AddTableName` (schema package): insert-if-absent
into the sorted name list; on first insertion also register the source and
a nil table-map placeholder when the map has no entry. -/
def schemaAddTableName (m : SchemaSt) (name : String) : SchemaSt :=
  if name ∈ m.tableNames then m
  else
    let names := sortStrings (m.tableNames ++ [name])
    if name ∈ m.tableMapKeys then { m with tableNames := names }
    else
      { tableNames := names
        tableMapKeys := m.tableMapKeys ++ [name]
        tableSrcKeys := m.tableSrcKeys ++ [name] }

/-- State of a `SourceSchema` as far as `AddTableName` touches it. -/
structure SrcSchemaSt where
  tablesToLoad : List String
  tableNames : List String
  tableMapKeys : List String
  schema : Option SchemaSt
  deriving DecidableEq, Repr

/-- Embedding of `SourceSchema.AddTableName` (schema package).  Faithful to
the source: `lowerTable := tableName` is assigned WITHOUT `strings.ToLower`,
so when `TablesToLoad` is non-empty the candidate name is compared as-is
against the lowercased allowlist entries.  Then insert-if-absent with sort,
propagation to the parent schema, and a nil table-map placeholder. -/
def srcAddTableName (m : SrcSchemaSt) (name : String) : SrcSchemaSt :=
  let lowerTable := name
  if m.tablesToLoad ≠ [] ∧ ¬ m.tablesToLoad.any (fun t => strLower t = lowerTable) then
    m
  else if name ∈ m.tableNames then m
  else
    { m with
      tableNames := sortStrings (m.tableNames ++ [name])
      schema := m.schema.map (fun s => schemaAddTableName s name)
      tableMapKeys :=
        if name ∈ m.tableMapKeys then m.tableMapKeys
        else m.tableMapKeys ++ [name] }

/-! Remaining auxiliary definitions used by the theorems below. -/

/-- Modelled from the spec: the lossy `AsFloat()` conversion of the value
package (not under src); defined on the numeric kinds. -/
def Value.asFloat : Value → Option ℚ
  | .intV i => some (i : ℚ)
  | .numV q => some q
  | _ => none

/-- Float view of a successful operate-function result. -/
def outFloat : EvalOut → Option ℚ
  | .val (some v) => v.asFloat
  | _ => none

/-- No-overflow side conditions of the int/number agreement law, per
operator. -/
def noOverflow : Tok → ℤ → ℤ → Prop
  | .plus, a, b => inRange64 (a + b)
  | .minus, a, b => inRange64 (a - b)
  | .star, a, b => inRange64 (a * b)
  | .multiply, a, b => inRange64 (a * b)
  | .modulus, _, b => b ≠ 0
  | _, _, _ => True

/-- The operand position holds a Nil: either the untyped nil interface or
a `NilValue`; the source handles both in one `case nil, value.NilValue`. -/
def isNilG (v : GoValue) : Prop := v = none ∨ v = some Value.nilV

/-- Scan forward to the closing bracket of a glob character class. -/
def skipClass : List Char → Option (List Char)
  | [] => none
  | c :: rest => if c = ']' then some rest else skipClass rest

/-- Modelled from the spec: pattern well-formedness of the external
`mb0/glob` matcher — every `[` opens a character class that must be closed
by a `]`; an unterminated class is an invalid pattern. -/
def globValidAux : Bool → List Char → Bool
  | inClass, [] => !inClass
  | inClass, c :: rest =>
      if inClass then
        if c = ']' then globValidAux false rest else globValidAux true rest
      else
        if c = '[' then globValidAux true rest else globValidAux false rest

theorem skipClass_length {l r : List Char} (h : skipClass l = some r) :
    r.length < l.length := by
  induction l generalizing r with
  | nil => simp [skipClass] at h
  | cons c rest ih =>
      unfold skipClass at h
      split at h
      · cases h
        simp
      · have := ih h
        simp only [List.length_cons]
        omega

/-- Modelled from the spec: simple glob matching over `*`, `?`, character
classes (matched as any single character in this model) and literal
characters. -/
def globSimpleMatch : List Char → List Char → Bool
  | [], t => t.isEmpty
  | '*' :: p, [] => globSimpleMatch p []
  | '*' :: p, c :: t => globSimpleMatch p (c :: t) || globSimpleMatch ('*' :: p) t
  | '?' :: _, [] => false
  | '?' :: p, _ :: t => globSimpleMatch p t
  | '[' :: _, [] => false
  | '[' :: p, _ :: t =>
      match h : skipClass p with
      | some p2 => globSimpleMatch p2 t
      | none => false
  | _ :: _, [] => false
  | c :: p, d :: t => (c == d) && globSimpleMatch p t
  termination_by p t => p.length + t.length
  decreasing_by
    all_goals simp_wf
    all_goals first
      | omega
      | (have hlen := skipClass_length h; omega)

/-- Modelled from the spec: the external `glob.Match(pattern, subject)` of
`mb0/glob` — `(match, err)` with a non-nil error on an invalid pattern. -/
def globM : GlobFn := fun pattern subject =>
  if globValidAux false pattern.data then
    (globSimpleMatch pattern.data subject.data, false)
  else (false, true)

/-- A glob function that never matches and never errors (used where the
matcher is irrelevant). -/
def gm0 : GlobFn := fun _ _ => (false, false)

/-- A read-context on which every identity resolves to `Bool(false)`. -/
def ctxF0 : CtxF := fun _ => (some (.boolV false), none)

/-- A read-context on which every identity resolves to `NilValue`. -/
def ctxNil : CtxF := fun _ => (some .nilV, none)

/-- A read-context on which every identity is the untyped nil interface. -/
def ctxEmpty : CtxF := fun _ => (none, none)

/-- A read-context binding `x` to `NilValue` and everything else to
`Int(5)`. -/
def ctxNilInt : CtxF :=
  fun n => if n = "x" then (some .nilV, none) else (some (.intV 5), none)

/-! Helper lemmas. -/

theorem wrap64_eq_of_inRange64 {x : ℤ} (h : inRange64 x) : wrap64 x = x := by
  obtain ⟨h1, h2⟩ := h
  have hlo : (0 : ℤ) ≤ x + 2 ^ 63 := by linarith
  have hhi : x + 2 ^ 63 < 2 ^ 64 := by
    have h64 : (2 : ℤ) ^ 64 = 2 ^ 63 + 2 ^ 63 := by norm_num
    linarith
  unfold wrap64
  rw [Int.emod_eq_of_lt hlo hhi]
  ring

theorem ratTrunc_intCast (n : ℤ) : ratTrunc (n : ℚ) = n := by
  unfold ratTrunc
  simp

theorem mem_insertSorted {a s : String} {l : List String} :
    a ∈ insertSorted s l ↔ a = s ∨ a ∈ l := by
  induction l with
  | nil => simp [insertSorted]
  | cons t rest ih =>
      unfold insertSorted
      split
      · simp
      · simp only [List.mem_cons, ih]
        tauto

theorem mem_sortStrings {a : String} {l : List String} :
    a ∈ sortStrings l ↔ a ∈ l := by
  induction l with
  | nil => simp [sortStrings]
  | cons s rest ih => simp [sortStrings, mem_insertSorted, ih]

theorem div_eq_mkRat_eleven_two : (11 : ℚ) / 2 = mkRat 11 2 := by
  rw [Rat.mkRat_eq_div]; norm_num

theorem div_eq_mkRat_five_two : (5 : ℚ) / 2 = mkRat 5 2 := by
  rw [Rat.mkRat_eq_div]; norm_num

theorem div_eq_mkRat_eleven_five : (11 : ℚ) / 2 / ((5 : ℚ) / 2) = mkRat 11 5 := by
  rw [Rat.mkRat_eq_div]; norm_num

theorem evalColumns_append_of_skip (gm : GlobFn) (ctx : Ctx) (gcol : Column)
    (cs₂ : List Column) (hskip : guardCheck gm ctx gcol.guard = .skip)
    (cs₁ : List Column) :
    evalColumns gm ctx (cs₁ ++ gcol :: cs₂) = evalColumns gm ctx (cs₁ ++ cs₂) := by
  induction cs₁ with
  | nil => simp [evalColumns, hskip]
  | cons c cs₁ ih =>
      simp only [List.cons_append, evalColumns, List.append_eq]
      rw [ih]

/-! Claim theorems. -/

/-- C1: for every SqlSelect with a non-nil Where and every read-context,
the WHERE gate of `EvalSql` maps the evaluated WHERE value as follows:
a `Bool(false)` result returns `(false, nil)` regardless of the projection
columns (no puts issued); a Nil result — untyped nil, e.g. from a missing
identity, or `NilValue` — returns `(true, nil)` keeping the row; an Error
value result returns `(true, err)` keeping the row and surfacing the
error. -/
theorem c1_evalSql_where_gate (gm : GlobFn) (sel : SqlSelect) (ctx : CtxF)
    (w : Expr) (hw : sel.whereE = some w) :
    (eval gm (some ctx) w = .val (some (.boolV false)) →
      evalSql gm sel ctx = .ret false none []) ∧
    ((eval gm (some ctx) w = .val none ∨ eval gm (some ctx) w = .val (some .nilV)) →
      evalSql gm sel ctx = .ret true none []) ∧
    (∀ m, eval gm (some ctx) w = .val (some (.errV m)) →
      evalSql gm sel ctx = .ret true (some m) []) := by
  refine ⟨fun h => ?_, fun h => ?_, fun m h => ?_⟩
  · simp [evalSql, hw, h]
  · rcases h with h | h <;> simp [evalSql, hw, h]
  · simp [evalSql, hw, h]

/-- Witness for C1 at a concrete select and context. -/
theorem c1_evalSql_where_gate_witness :
    evalSql gm0 ⟨some (.ident "x"), []⟩ ctxF0 = .ret false none [] :=
  (c1_evalSql_where_gate gm0 ⟨some (.ident "x"), []⟩ ctxF0 (.ident "x") rfl).1 (by rfl)

/-- C2: for `a BETWEEN b AND c` with all three operands evaluating to the
same numeric kind, the tri walker returns the value `Bool(b < a < c)` with
strict inequalities on both sides, and in particular returns
`Bool(false)` with ok (no error) when `a` equals either boundary.  For the
Int kind the ok flag is true in both branches; for the Number kind only the
value component is asserted in general (the source returns ok `false` on a
successful match there). -/
theorem c2_walkTri_between_strict (gm : GlobFn) (ctx : Ctx) (e1 e2 e3 : Expr) :
    (∀ a b c : ℤ,
      eval gm ctx e1 = .val (some (.intV a)) →
      eval gm ctx e2 = .val (some (.intV b)) →
      eval gm ctx e3 = .val (some (.intV c)) →
      walkTri gm ctx .between e1 e2 e3 =
        .ret (.boolV (decide (b < a ∧ a < c))) true) ∧
    (∀ a b c : ℚ,
      eval gm ctx e1 = .val (some (.numV a)) →
      eval gm ctx e2 = .val (some (.numV b)) →
      eval gm ctx e3 = .val (some (.numV c)) →
      (∃ ok, walkTri gm ctx .between e1 e2 e3 =
        .ret (.boolV (decide (b < a ∧ a < c))) ok) ∧
      ((a = b ∨ a = c) →
        walkTri gm ctx .between e1 e2 e3 = .ret (.boolV false) true)) := by
  constructor
  · intro a b c h1 h2 h3
    simp only [walkTri, h1, h2, h3]
    by_cases hc : a > b ∧ a < c
    · simp [hc]
    · simp [hc]
  · intro a b c h1 h2 h3
    constructor
    · by_cases hc : a > b ∧ a < c
      · exact ⟨false, by simp only [walkTri, h1, h2, h3]; simp [hc]⟩
      · exact ⟨true, by simp only [walkTri, h1, h2, h3]; simp [hc]⟩
    · intro hab
      have hc : ¬ (a > b ∧ a < c) := by
        rcases hab with rfl | rfl
        · intro hx
          exact lt_irrefl a hx.1
        · intro hx
          exact lt_irrefl a hx.2
      simp only [walkTri, h1, h2, h3]
      simp [hc]

/-- Witness for C2 at concrete Int literals. -/
theorem c2_walkTri_between_strict_witness :
    walkTri gm0 none .between (intLit 5) (intLit 1) (intLit 9) =
      .ret (.boolV true) true := by
  have h := (c2_walkTri_between_strict gm0 none (intLit 5) (intLit 1) (intLit 9)).1
    5 1 9 rfl rfl rfl
  simpa using h

/-- C3 counterexample: evaluating the binary expression `1 / 0` on Ints
panics with a runtime error that escapes `Vm.Execute` (errRecover re-raises
`runtime.Error` panics), contradicting the claim that Execute never lets a
panic escape on integer division by zero. -/
theorem c3_execute_divzero_counterexample :
    execute gm0 (.binary .divide (intLit 1) (intLit 0)) ctxEmpty =
      .panicked .runtime := by
  rfl

/-- C3 as amended: for every Int dividend, evaluating `a / 0` raises a
runtime divide-by-zero panic inside `operateInts`, and `errRecover`
re-raises runtime panics, so `Vm.Execute` propagates the panic rather than
returning an error (only non-runtime, error-valued panics are converted to
returned errors). -/
theorem c3_execute_divzero_panics (gm : GlobFn) (ctx : CtxF) (a : ℤ) :
    execute gm (.binary .divide (intLit a) (intLit 0)) ctx =
      .panicked .runtime := by
  simp [execute, eval, intLit, numberNodeToValue, binCombine, binDispatch,
    operateInts]

/-- C4 counterexample: with both operands Nil, `==` evaluates to
`Bool(true)` and `!=` also evaluates to `Bool(true)` — the left-Nil `!=`
branch of `walkBinary` returns true unconditionally — so `nil != nil` is
not the boolean negation of `nil == nil` and is not `Bool(false)` as the
claim states. -/
theorem c4_nil_neq_nil_counterexample :
    eval gm0 (some ctxNil) (.binary .eqEq (.ident "x") (.ident "y")) =
      .val (some (.boolV true)) ∧
    eval gm0 (some ctxNil) (.binary .ne (.ident "x") (.ident "y")) =
      .val (some (.boolV true)) :=
  ⟨rfl, rfl⟩

/-- C4 as amended: with at least one Nil operand and neither an Error,
`!=` is the boolean negation of `==` in the Bool-returning cases (left Nil
against non-Nil right, Bool against Nil, String against Nil) — but when
both operands are Nil, `==` and `!=` both return `Bool(true)`, and when
the left operand is Int or Number with a Nil right, both operators return
a Go error instead of Bools. -/
theorem c4_nil_neq_negation_amended (gm : GlobFn) (ctx : Ctx) (e1 e2 : Expr)
    (lv rv : GoValue)
    (h1 : eval gm ctx e1 = .val lv) (h2 : eval gm ctx e2 = .val rv) :
    (isNilG lv → isNilG rv →
      eval gm ctx (.binary .eqEq e1 e2) = .val (some (.boolV true)) ∧
      eval gm ctx (.binary .ne e1 e2) = .val (some (.boolV true))) ∧
    (isNilG lv → ¬ isNilG rv →
      eval gm ctx (.binary .eqEq e1 e2) = .val (some (.boolV false)) ∧
      eval gm ctx (.binary .ne e1 e2) = .val (some (.boolV true))) ∧
    (∀ b, lv = some (.boolV b) → isNilG rv →
      eval gm ctx (.binary .eqEq e1 e2) = .val (some (.boolV false)) ∧
      eval gm ctx (.binary .ne e1 e2) = .val (some (.boolV true))) ∧
    (∀ s, lv = some (.strV s) → isNilG rv →
      eval gm ctx (.binary .eqEq e1 e2) = .val (some (.boolV (decide (s = "")))) ∧
      eval gm ctx (.binary .ne e1 e2) = .val (some (.boolV (decide (s ≠ ""))))) ∧
    (∀ i, lv = some (.intV i) → isNilG rv →
      eval gm ctx (.binary .eqEq e1 e2) = .err "unsupported binary expression" ∧
      eval gm ctx (.binary .ne e1 e2) = .err "unsupported binary expression") ∧
    (∀ q, lv = some (.numV q) → isNilG rv →
      eval gm ctx (.binary .eqEq e1 e2) = .err "unsupported binary expression" ∧
      eval gm ctx (.binary .ne e1 e2) = .err "unsupported binary expression") := by
  have hb : ∀ op, eval gm ctx (.binary op e1 e2) = binDispatch gm op lv rv := by
    intro op
    simp [eval, binCombine, h1, h2]
  refine ⟨?_, ?_, ?_, ?_, ?_, ?_⟩
  · intro hl hr
    rcases hl with rfl | rfl <;> rcases hr with rfl | rfl <;>
      exact ⟨by simp [hb, binDispatch], by simp [hb, binDispatch]⟩
  · intro hl hr
    rcases hl with rfl | rfl <;>
    · constructor <;>
      · rcases rv with _ | v
        · exact absurd (Or.inl rfl) hr
        · cases v
          case nilV => exact absurd (Or.inr rfl) hr
          all_goals simp [hb, binDispatch]
  · intro b hlv hr
    subst hlv
    rcases hr with rfl | rfl <;>
      exact ⟨by simp [hb, binDispatch], by simp [hb, binDispatch]⟩
  · intro s hlv hr
    subst hlv
    rcases hr with rfl | rfl <;>
    · constructor <;>
      · by_cases hs : s = "" <;> simp [hb, binDispatch, hs]
  · intro i hlv hr
    subst hlv
    rcases hr with rfl | rfl <;>
      exact ⟨by simp [hb, binDispatch], by simp [hb, binDispatch]⟩
  · intro q hlv hr
    subst hlv
    rcases hr with rfl | rfl <;>
      exact ⟨by simp [hb, binDispatch], by simp [hb, binDispatch]⟩

/-- Witness for C4 at a Nil left operand against an Int right operand. -/
theorem c4_nil_neq_negation_amended_witness :
    eval gm0 (some ctxNilInt) (.binary .eqEq (.ident "x") (.ident "y")) =
      .val (some (.boolV false)) ∧
    eval gm0 (some ctxNilInt) (.binary .ne (.ident "x") (.ident "y")) =
      .val (some (.boolV true)) :=
  (c4_nil_neq_negation_amended gm0 (some ctxNilInt) (.ident "x") (.ident "y")
      (some .nilV) (some (.intV 5)) (by rfl) (by rfl)).2.1
    (Or.inr rfl) (by simp [isNilG])

/-- C5 (the code deviates): `operateInts` handles only `TokenEqualEqual`
among the equality tokens, so the single-equals operator on two Ints falls
through to the unknown-operator panic instead of returning the Bool of
their equality, while `==` does return a Bool. -/
theorem c5_operateInts_single_equals :
    operateInts .eq 1 1 = .panicked (.errVal opUnknownMsg) ∧
    operateInts .eqEq 1 1 = .val (some (.boolV true)) := by
  exact ⟨rfl, rfl⟩

/-- C6 counterexample: for the division operator the int/number agreement
law fails without any overflow — `operate_ints(/, 1, 2)` truncates to
`Int(0)` (float 0) while `operate_numbers(/, 1.0, 2.0)` yields
`Number(0.5)`. -/
theorem c6_int_float_div_counterexample :
    outFloat (operateInts .divide 1 2) = some 0 ∧
    outFloat (operateNumbers .divide 1 2) = some ((1 : ℚ) / 2) ∧
    some (0 : ℚ) ≠ some ((1 : ℚ) / 2) := by
  refine ⟨by decide, rfl, by simp⟩

/-- C6 as amended: the float-agreement law
`operate_ints(op,a,b).AsFloat() == operate_numbers(op,float(a),float(b)).AsFloat()`
holds for `+`, `-` and `*` when no 64-bit overflow occurs and for `%` when
the divisor is nonzero, but not for `/` (integer division truncates while
number division does not). -/
theorem c6_int_float_agreement_amended (op : Tok) (a b : ℤ)
    (hop : op = .plus ∨ op = .minus ∨ op = .star ∨ op = .multiply ∨
      op = .modulus)
    (hno : noOverflow op a b) :
    outFloat (operateInts op a b) =
      outFloat (operateNumbers op (a : ℚ) (b : ℚ)) := by
  rcases hop with rfl | rfl | rfl | rfl | rfl
  · have hw : wrap64 (a + b) = a + b := wrap64_eq_of_inRange64 hno
    simp [operateInts, operateNumbers, outFloat, Value.asFloat, hw]
  · have hw : wrap64 (a - b) = a - b := wrap64_eq_of_inRange64 hno
    simp [operateInts, operateNumbers, outFloat, Value.asFloat, hw]
  · have hw : wrap64 (a * b) = a * b := wrap64_eq_of_inRange64 hno
    simp [operateInts, operateNumbers, outFloat, Value.asFloat, hw]
  · have hw : wrap64 (a * b) = a * b := wrap64_eq_of_inRange64 hno
    simp [operateInts, operateNumbers, outFloat, Value.asFloat, hw]
  · have hbz : b ≠ 0 := hno
    simp [operateInts, operateNumbers, outFloat, Value.asFloat,
      ratTrunc_intCast, hbz]

/-- Witness for C6 at concrete addition operands. -/
theorem c6_int_float_agreement_amended_witness :
    outFloat (operateInts .plus 2 3) =
      outFloat (operateNumbers .plus ((2 : ℤ) : ℚ) ((3 : ℤ) : ℚ)) :=
  c6_int_float_agreement_amended .plus 2 3 (Or.inl rfl) (by constructor <;> decide)

/-- C7 (the code deviates): on an invalid LIKE glob pattern (here an
unterminated character class) `operateStrings` returns `Bool(false)`, not
an Error value — the source constructs the InvalidPattern error value but
discards it because the `return` is missing. -/
theorem c7_like_invalid_pattern_returns_bool :
    globM "[" "abc" = (false, true) ∧
    operateStrings globM .like "abc" "[" = .boolV false :=
  ⟨rfl, rfl⟩

/-- C8: a column guard that evaluates to `Bool(false)`, `NilValue` or an
Error value causes `EvalSql` to skip exactly that column: the whole
evaluation (keep/error result and the sequence of puts, in declaration
order) is the same as for the select with that column removed; in
particular when every other column succeeds the row still yields
`(true, nil)`. -/
theorem c8_guard_skips_only_column (gm : GlobFn) (ctx : CtxF)
    (cs₁ cs₂ : List Column) (gcol : Column) (g : Expr)
    (hg : gcol.guard = some g)
    (hv : eval gm (some ctx) g = .val (some (.boolV false)) ∨
          eval gm (some ctx) g = .val (some .nilV) ∨
          ∃ m, eval gm (some ctx) g = .val (some (.errV m))) :
    evalSql gm ⟨none, cs₁ ++ gcol :: cs₂⟩ ctx =
      evalSql gm ⟨none, cs₁ ++ cs₂⟩ ctx := by
  have hskip : guardCheck gm (some ctx) gcol.guard = .skip := by
    rw [hg]
    rcases hv with h | h | ⟨m, h⟩ <;> simp [guardCheck, h]
  simpa [evalSql] using
    evalColumns_append_of_skip gm (some ctx) gcol cs₂ hskip cs₁

/-- Witness for C8 at a concrete select whose middle column has a false
guard. -/
theorem c8_guard_skips_only_column_witness :
    evalSql gm0
        ⟨none, [⟨"a", none, .str "va"⟩, ⟨"g", some (.ident "x"), .str "vg"⟩,
          ⟨"b", none, .str "vb"⟩]⟩ ctxF0 =
      evalSql gm0 ⟨none, [⟨"a", none, .str "va"⟩, ⟨"b", none, .str "vb"⟩]⟩
        ctxF0 :=
  c8_guard_skips_only_column gm0 ctxF0 [⟨"a", none, .str "va"⟩]
    [⟨"b", none, .str "vb"⟩] ⟨"g", some (.ident "x"), .str "vg"⟩ (.ident "x")
    rfl (Or.inl (by rfl))

/-- C9 counterexample: with a non-empty allowlist `["users"]`, adding the
table name `Users` — which matches `users` case-insensitively — leaves the
SourceSchema unchanged: the source lowercases only the allowlist entry,
never the candidate name (`lowerTable := tableName` without
`strings.ToLower`), so the filter is not case-insensitive in the name. -/
theorem c9_allowlist_counterexample :
    srcAddTableName ⟨["users"], [], [], none⟩ "Users" =
      ⟨["users"], [], [], none⟩ ∧
    strLower "Users" = strLower "users" :=
  ⟨rfl, rfl⟩

/-- C9 as amended: when `TablesToLoad` is non-empty, `AddTableName(name)`
admits `name` iff some allowlist entry lowercases to exactly `name` (the
entry is lowercased, the candidate name is compared as-is): a matching
name ends up in the table-name list, and a name no entry lowercases to
leaves the state unchanged. -/
theorem c9_allowlist_amended (s : SrcSchemaSt) (name : String)
    (hne : s.tablesToLoad ≠ []) :
    ((∃ t ∈ s.tablesToLoad, strLower t = name) →
      name ∈ (srcAddTableName s name).tableNames) ∧
    ((∀ t ∈ s.tablesToLoad, strLower t ≠ name) →
      srcAddTableName s name = s) := by
  constructor
  · rintro ⟨t, ht, hlow⟩
    have hany : s.tablesToLoad.any (fun t => strLower t = name) = true :=
      List.any_eq_true.mpr ⟨t, ht, by simp [hlow]⟩
    simp only [srcAddTableName]
    rw [if_neg (by simp [hany])]
    split
    · assumption
    · simp [mem_sortStrings]
  · intro hall
    have hany : s.tablesToLoad.any (fun t => strLower t = name) = false := by
      rw [List.any_eq_false]
      intro t ht
      simp [hall t ht]
    simp only [srcAddTableName]
    rw [if_pos ⟨hne, by simp [hany]⟩]

/-- Witness for C9: a lowercase name matching a mixed-case allowlist entry
is admitted. -/
theorem c9_allowlist_amended_witness :
    "users" ∈ (srcAddTableName ⟨["Users"], [], [], none⟩ "users").tableNames :=
  (c9_allowlist_amended ⟨["Users"], [], [], none⟩ "users" (by simp)).1
    ⟨"Users", by simp, by rfl⟩

/-- C10: `operateNumbers` with the modulus operator truncates both operands
toward zero to 64-bit integers and performs an integer modulus
(`float64(int64(a) % int64(b))`), panicking with a runtime error when the
truncated divisor is zero; on fractional operands this differs from the
floating-point remainder (fmod of 5.5 and 2.5 is 0.5, not the 1 produced
here). -/
theorem c10_operateNumbers_modulus_truncates (a b : ℚ) :
    (ratTrunc b ≠ 0 →
      operateNumbers .modulus a b =
        .val (some (.numV ((ratTrunc a).tmod (ratTrunc b) : ℤ)))) ∧
    (ratTrunc b = 0 → operateNumbers .modulus a b = .panicked .runtime) ∧
    ((11 : ℚ) / 2 - (5 : ℚ) / 2 * ((ratTrunc ((11 : ℚ) / 2 / ((5 : ℚ) / 2)) : ℤ) : ℚ) ≠
      (((ratTrunc ((11 : ℚ) / 2)).tmod (ratTrunc ((5 : ℚ) / 2)) : ℤ) : ℚ)) := by
  refine ⟨fun h => ?_, fun h => ?_, ?_⟩
  · simp [operateNumbers, h]
  · simp [operateNumbers, h]
  · rw [div_eq_mkRat_eleven_five, div_eq_mkRat_eleven_two, div_eq_mkRat_five_two]
    rw [show ratTrunc (mkRat 11 5) = 2 from rfl, show ratTrunc (mkRat 11 2) = 5 from rfl,
      show ratTrunc (mkRat 5 2) = 2 from rfl, show (5 : ℤ).tmod 2 = 1 from rfl]
    rw [← div_eq_mkRat_eleven_two, ← div_eq_mkRat_five_two]
    push_cast
    norm_num

/-- Witness for C10 at concrete fractional operands. -/
theorem c10_operateNumbers_modulus_truncates_witness :
    operateNumbers .modulus ((11 : ℚ) / 2) ((5 : ℚ) / 2) =
      .val (some (.numV 1)) := by
  have hb : ratTrunc ((5 : ℚ) / 2) ≠ 0 := by
    rw [div_eq_mkRat_five_two]; decide
  rw [(c10_operateNumbers_modulus_truncates ((11 : ℚ) / 2) ((5 : ℚ) / 2)).1 hb]
  rw [div_eq_mkRat_eleven_two, div_eq_mkRat_five_two]
  rw [show ratTrunc (mkRat 11 2) = 5 from rfl, show ratTrunc (mkRat 5 2) = 2 from rfl,
    show (5 : ℤ).tmod 2 = 1 from rfl]
  norm_num

end QLBridge
